import Mathlib

/-!
Shallow embedding of the fixed-point header (src/include/fixed-point.hpp).

Modelling conventions:
- size_t is modelled as 64 bits wide, so the statement c <<= 1U wraps
  modulo 2 ^ 64; the while-loop of util::byte_pow2_ceil is given explicit
  fuel, with none meaning the loop has not finished within that many steps.
- the native int of the conversion guard static_cast<int>(I) == I is
  modelled as 32 bits wide, two-complement.
- double values are modelled by exact rationals: static_cast<double> and
  std::ldexp are taken exact, the ideal correctly rounded semantics at
  exactly representable operands.
- the host double-to-text primitive behind std::to_string is abstracted as
  an arbitrary function argument fmt.
- the shift primitives are modelled at the unsigned w-bit storage kinds the
  library resolves to: a value is a natural below 2 ^ w, a left shift
  truncates to the operand width, a right shift divides.
-/

namespace Fp

/-- Model of std::bit_width for arguments below 2 ^ 64: the number of bits
needed to represent n, computed by repeated halving; the fuel of 64 keeps
the recursion structural and is exact on the 64-bit domain. -/
def bw_fuel : Nat → Nat → Nat
| 0, _ => 0
| fuel + 1, n => if n = 0 then 0 else bw_fuel fuel (n / 2) + 1

/-- std::bit_width on the (at most 64-bit) promoted unsigned operand. -/
def bit_width (n : Nat) : Nat := bw_fuel 64 n

/-- The while-loop of util::byte_pow2_ceil (source lines 54-56): double c
as a size_t, that is modulo 2 ^ 64, while c is strictly below x. -/
def bpc_loop : Nat → Nat → Nat → Option Nat
| 0, _, _ => none
| fuel + 1, x, c => if c < x then bpc_loop fuel x (c * 2 % 2 ^ 64) else some c

/-- util::byte_pow2_ceil with the host byte size CHAR_BIT as an explicit
parameter for the initial candidate. Fuel 64 suffices for every input on
which the C loop finishes when started from a byte size of 8. -/
def byte_pow2_ceil_host (char_bit x : Nat) : Option Nat := bpc_loop 64 x char_bit

/-- util::byte_pow2_ceil (source lines 53-57) on the modelled host, where
CHAR_BIT is 8. -/
def byte_pow2_ceil (x : Nat) : Option Nat := byte_pow2_ceil_host 8 x

/-- The predicate of the static assertion at source line 59, namely
byte_pow2_ceil(8U) == 8U, as a function of the host byte size. -/
def assert_byte8 (char_bit : Nat) : Prop := byte_pow2_ceil_host char_bit 8 = some 8

instance (char_bit : Nat) : Decidable (assert_byte8 char_bit) :=
inferInstanceAs (Decidable (byte_pow2_ceil_host char_bit 8 = some 8))

/-- util::s_int_struct and util::u_int_struct (source lines 33-41): a
storage kind exists exactly for the four explicit specializations at widths
8, 16, 32 and 64; signedness only selects the signed or unsigned variant of
the same width, so the model keeps the width. -/
def int_b (w : Nat) : Option Nat :=
if w = 8 ∨ w = 16 ∨ w = 32 ∨ w = 64 then some w else none

/-- Resolving a requested width B to a concrete storage kind:
util::byte_pow2_ceil picks the candidate width and util::int_b requires an
explicit specialization for it. -/
def storage_kind (B : Nat) : Option Nat := (byte_pow2_ceil B).bind int_b

/-- fp::t (source lines 62-74): the three shape parameters and the single
stored integer. The storage range is not constrained here, matching the
aggregate with no constructor whose overflow is the responsibility of the
caller. -/
structure t where
  B : Nat
  I : Int
  signed : Bool
  internal : Int
deriving DecidableEq

/-- The guard of operator float and operator double:
static_cast<int>(I) == I with a 32-bit native int. -/
def int_representable (i : Int) : Prop := -2147483648 ≤ i ∧ i < 2147483648

instance (i : Int) : Decidable (int_representable i) :=
inferInstanceAs (Decidable (-2147483648 ≤ i ∧ i < 2147483648))

/-- Model of std::ldexp at exact rational operands: multiply by 2 ^ e. -/
def ldexp (x : ℚ) (e : Int) : ℚ := x * 2 ^ e

/-- operator double (source line 70): available only when the exponent
passes the native-int guard, in which case the result is
ldexp(static_cast<double>(internal), static_cast<int>(I)); none models the
conversion being unavailable for the shape. -/
def to_double (v : t) : Option ℚ :=
if int_representable v.I then some (ldexp (v.internal : ℚ) v.I) else none

/-- operator std::string (source line 72): std::to_string applied to the
result of operator double, with the host double-to-text primitive
abstracted as fmt. The body invokes operator double, so the text conversion
is usable exactly when the double conversion is. -/
def to_text (fmt : ℚ → String) (v : t) : Option String := (to_double v).map fmt

/-- from_int (source lines 76-80), transcribed as written: both the width
argument and the exponent argument of fp::t are
byte_pow2_ceil(bit_width(abs(n))), the signedness comes from n < 0, and the
stored integer is n itself. -/
def from_int (n : Int) : Option t :=
(byte_pow2_ceil (bit_width n.natAbs)).map
(fun w => { B := w, I := (w : Int), signed := decide (n < 0), internal := n })

/-- util::rshift (source lines 48-49) at an unsigned w-bit operand: a
negative shift amount flips to a left shift by the absolute value; the
result truncates to the operand width as the return type T does. -/
def rshift (w : Nat) (shift_amt : Int) (v : Nat) : Nat :=
if shift_amt < 0 then (v <<< (-shift_amt).toNat) % 2 ^ w else v >>> shift_amt.toNat

/-- util::lshift (source lines 50-51), the mirror of util::rshift. -/
def lshift (w : Nat) (shift_amt : Int) (v : Nat) : Nat :=
if shift_amt < 0 then v >>> (-shift_amt).toNat else (v <<< shift_amt.toNat) % 2 ^ w

/-- Spec data model, section 3: the semantic value of a Fixed-Point Value is
the stored integer times 2 ^ I. -/
def semantic_value (v : t) : ℚ := (v.internal : ℚ) * 2 ^ v.I

/-- Spec resolver, section 4.1: the smallest member of the ladder
8, 16, 32, 64 that is at least B (left at 64 above the ladder). -/
def ladder_ceil (B : Nat) : Nat :=
if B ≤ 8 then 8 else if B ≤ 16 then 16 else if B ≤ 32 then 32 else 64

/-- The while-loop of util::byte_pow2_ceil halts on input x, started from a
candidate equal to the byte size 8, within some number of steps. -/
def Terminates (x : Nat) : Prop := ∃ fuel, (bpc_loop fuel x 8).isSome

end Fp

namespace Fp

lemma bpc_loop_le {fuel x c r : Nat} (h : bpc_loop fuel x c = some r) : x ≤ r := by
  induction fuel generalizing c with
  | zero => simp [bpc_loop] at h
  | succ n ih =>
    rw [bpc_loop] at h
    by_cases hc : c < x
    · rw [if_pos hc] at h
      exact ih h
    · rw [if_neg hc] at h
      cases h
      omega

lemma bpc_loop_stuck (fuel : Nat) :
    ∀ c, (c = 0 ∨ ∃ k, k ≤ 63 ∧ c = 2 ^ k) → bpc_loop fuel (2 ^ 63 + 1) c = none := by
  induction fuel with
  | zero => intro c _; rfl
  | succ n ih =>
    intro c hc
    have hlt : c < 2 ^ 63 + 1 := by
      rcases hc with h0 | ⟨k, hk, rfl⟩
      · omega
      · have : (2 : Nat) ^ k ≤ 2 ^ 63 := Nat.pow_le_pow_right (by omega) hk
        omega
    rw [bpc_loop, if_pos hlt]
    apply ih
    rcases hc with h0 | ⟨k, hk, rfl⟩
    · subst h0
      exact Or.inl rfl
    · by_cases h63 : k = 63
      · subst h63
        left
        norm_num
      · right
        refine ⟨k + 1, by omega, ?_⟩
        have hlt64 : (2 : Nat) ^ (k + 1) < 2 ^ 64 := Nat.pow_lt_pow_right (by omega) (by omega)
        calc 2 ^ k * 2 % 2 ^ 64 = 2 ^ (k + 1) % 2 ^ 64 := by rw [← Nat.pow_succ]
        _ = 2 ^ (k + 1) := Nat.mod_eq_of_lt hlt64

lemma bpc_loop_term {x : Nat} (hx : x ≤ 2 ^ 63) :
    ∀ fuel k, k ≤ 63 → 64 ≤ fuel + k → (bpc_loop fuel x (2 ^ k)).isSome := by
  intro fuel
  induction fuel with
  | zero => intro k hk hfuel; omega
  | succ n ih =>
    intro k hk hfuel
    by_cases h : 2 ^ k < x
    · have hk63 : k < 63 := by
        rcases Nat.lt_or_ge k 63 with h1 | h1
        · exact h1
        · exfalso
          have : k = 63 := by omega
          subst this
          omega
      rw [bpc_loop, if_pos h]
      have hstep : 2 ^ k * 2 % 2 ^ 64 = 2 ^ (k + 1) := by
        have hlt64 : (2 : Nat) ^ (k + 1) < 2 ^ 64 := Nat.pow_lt_pow_right (by omega) (by omega)
        calc 2 ^ k * 2 % 2 ^ 64 = 2 ^ (k + 1) % 2 ^ 64 := by rw [← Nat.pow_succ]
        _ = 2 ^ (k + 1) := Nat.mod_eq_of_lt hlt64
      rw [hstep]
      exact ih (k + 1) (by omega) (by omega)
    · rw [bpc_loop, if_neg h]
      rfl

end Fp

namespace Fp

/-- Claim C1: the spec says from_int produces a value with binary exponent 0
and stored integer n; the source instead passes the resolved width
expression byte_pow2_ceil(bit_width(abs(n))) a second time, as the exponent
argument of fp::t, so from_int of 5 gets exponent 8 rather than 0 (the
width, signedness and stored integer agree with the spec). -/
theorem c1_from_int_exponent_bug :
    from_int 5 = some { B := 8, I := 8, signed := false, internal := 5 } := by
  decide

/-- Claim C2: with the exponent slip of from_int, converting from_int of 5
to double scales by 2 to the 8 and yields 1280, not 5. -/
theorem c2_from_int_double_bug : (from_int 5).bind to_double = some (1280 : ℚ) := by
  have h1 : from_int 5 = some { B := 8, I := 8, signed := false, internal := 5 } := by decide
  rw [h1]
  show to_double _ = _
  simp only [to_double, ldexp]
  rw [if_pos (by decide : int_representable (8 : Int))]
  norm_num

/-- Claim C3: rshift with a non-negative amount shifts right (divides by the
power of two) and with a negative amount shifts left by the absolute value;
lshift is the mirror. -/
theorem c3_shift_direction : ∀ (w : Nat) (k : Int) (v : Nat),
    (0 ≤ k → rshift w k v = v / 2 ^ k.toNat ∧ lshift w k v = v * 2 ^ k.toNat % 2 ^ w) ∧
    (k < 0 → rshift w k v = v * 2 ^ (-k).toNat % 2 ^ w ∧ lshift w k v = v / 2 ^ (-k).toNat) := by
  intro w k v
  constructor
  · intro h
    have hk : ¬ k < 0 := by omega
    simp only [rshift, lshift, if_neg hk, Nat.shiftLeft_eq, Nat.shiftRight_eq_div_pow]
    exact ⟨trivial, trivial⟩
  · intro h
    simp only [rshift, lshift, if_pos h, Nat.shiftLeft_eq, Nat.shiftRight_eq_div_pow]
    exact ⟨trivial, trivial⟩

/-- Witness for C3 at the concrete scenario of the spec: rshift by -2 of the
stored integer 1 equals lshift by 2 of 1, namely 4. -/
theorem c3_shift_direction_witness : rshift 8 (-2) 1 = 4 ∧ lshift 8 2 1 = 4 := by
  constructor
  · have h := (c3_shift_direction 8 (-2) 1).2 (by decide)
    exact h.1.trans (by decide)
  · have h := (c3_shift_direction 8 2 1).1 (by decide)
    exact h.2.trans (by decide)

/-- Claim C4: whenever the exponent passes the native-int guard, the double
conversion equals the semantic value stored integer times 2 to the I, the
load-exponent operation being exact at these operands. -/
theorem c4_to_double_semantics :
    ∀ v : t, int_representable v.I → to_double v = some (semantic_value v) := by
  intro v h
  simp only [to_double]
  rw [if_pos h]
  rfl

/-- Witness for C4 at the concrete scenarios of the spec: stored integer 3
with exponent -1 converts to 1.5, stored integer 1 with exponent 10
converts to 1024. -/
theorem c4_to_double_semantics_witness :
    to_double { B := 8, I := -1, signed := true, internal := 3 } = some ((3 : ℚ) / 2) ∧
    to_double { B := 16, I := 10, signed := false, internal := 1 } = some (1024 : ℚ) := by
  constructor
  · rw [c4_to_double_semantics _ (by decide)]
    norm_num [semantic_value]
  · rw [c4_to_double_semantics _ (by decide)]
    norm_num [semantic_value]

/-- Claim C5, amended: the text conversion is the host formatting primitive
composed with the double conversion and nothing else, but it is not
unconditional: it is usable exactly when the exponent passes the double
conversion guard, because its body invokes operator double. -/
theorem c5_text_composition :
    (∀ (fmt : ℚ → String) (v : t), int_representable v.I →
        to_text fmt v = some (fmt (semantic_value v))) ∧
    (∀ (fmt : ℚ → String) (v : t), ¬ int_representable v.I → to_text fmt v = none) := by
  constructor
  · intro fmt v h
    simp only [to_text, to_double]
    rw [if_pos h]
    rfl
  · intro fmt v h
    simp only [to_text, to_double]
    rw [if_neg h]
    rfl

/-- Counterexample for C5 as stated: a shape whose exponent is not
representable as a native int has no usable text conversion, so the text
conversion is not available for every shape. -/
theorem c5_text_guard_counterexample :
    to_text (fun _ => "x") { B := 8, I := 2147483648, signed := false, internal := 1 } = none := by
  have h : ¬ int_representable (2147483648 : Int) := by decide
  simp only [to_text, to_double]
  rw [if_neg h]
  rfl

/-- Witness for the amended C5 at a concrete shape and formatter. -/
theorem c5_text_composition_witness :
    to_text (fun _ => "five") { B := 8, I := 0, signed := false, internal := 5 } = some "five" := by
  have h := c5_text_composition.1 (fun _ => "five")
    { B := 8, I := 0, signed := false, internal := 5 } (by decide)
  simpa using h

/-- Claim C6: for every request up to 64 the resolver returns the smallest
ladder member at least the request; the resolved width is monotone in the
request, is always a ladder member, and is always at least the request. -/
theorem c6_resolver_ladder :
    (∀ B, B ≤ 64 → byte_pow2_ceil B = some (ladder_ceil B)) ∧
    (∀ B2, B2 ≤ 64 → ∀ B1, B1 ≤ B2 → ladder_ceil B1 ≤ ladder_ceil B2) ∧
    (∀ B, B ≤ 64 →
      (ladder_ceil B = 8 ∨ ladder_ceil B = 16 ∨ ladder_ceil B = 32 ∨ ladder_ceil B = 64) ∧
      B ≤ ladder_ceil B) := by
  refine ⟨?_, ?_, ?_⟩ <;> decide

/-- Witness for C6 at a concrete request. -/
theorem c6_resolver_ladder_witness : byte_pow2_ceil 9 = some 16 := by
  have h := c6_resolver_ladder.1 9 (by norm_num)
  exact h.trans (by decide)

/-- Claim C7: for every requested width above 64 no storage kind resolves:
the doubling search overshoots the ladder and no explicit specialization
exists at or above 128, so no value of such a shape can be formed. -/
theorem c7_width_above_ladder : ∀ B : Nat, 64 < B → storage_kind B = none := by
  intro B hB
  unfold storage_kind
  cases h : byte_pow2_ceil B with
  | none => rfl
  | some r =>
    have h2 : bpc_loop 64 B 8 = some r := h
    have hr : B ≤ r := bpc_loop_le h2
    show int_b r = none
    unfold int_b
    rw [if_neg (by omega)]

/-- Witness for C7 at the spec negative test, width 65. -/
theorem c7_width_above_ladder_witness : storage_kind 65 = none :=
c7_width_above_ladder 65 (by norm_num)

lemma assert_byte8_small :
    ∀ cb, cb < 9 → (assert_byte8 cb ↔ (cb = 1 ∨ cb = 2 ∨ cb = 4 ∨ cb = 8)) := by
  decide

/-- Claim C8, amended: the asserted predicate byte_pow2_ceil(8) == 8 holds
exactly when the host byte size is a power of two at most 8, that is one of
1, 2, 4 or 8; so the assertion accepts byte size 8, rejects every byte size
above 8, but also accepts the hypothetical byte sizes 1, 2 and 4. -/
theorem c8_assert_characterization :
    ∀ char_bit : Nat,
      assert_byte8 char_bit ↔ (char_bit = 1 ∨ char_bit = 2 ∨ char_bit = 4 ∨ char_bit = 8) := by
  intro cb
  by_cases h : cb < 9
  · exact assert_byte8_small cb h
  · have hstep : bpc_loop 64 8 cb = if cb < 8 then bpc_loop 63 8 (cb * 2 % 2 ^ 64) else some cb := rfl
    have h8 : ¬ cb < 8 := by omega
    unfold assert_byte8 byte_pow2_ceil_host
    rw [hstep, if_neg h8]
    constructor
    · intro hsome
      injection hsome with h9
      omega
    · intro hor
      rcases hor with h1 | h1 | h1 | h1 <;> omega

/-- Counterexample for C8 as stated: a host byte size of 4 satisfies the
asserted predicate even though it is not 8, so the predicate is not
equivalent to the byte size being 8. -/
theorem c8_assert_counterexample : assert_byte8 4 ∧ (4 : Nat) ≠ 8 := by decide

/-- Witness for the amended C8 at the actual host byte size 8. -/
theorem c8_assert_characterization_witness : assert_byte8 8 :=
(c8_assert_characterization 8).mpr (Or.inr (Or.inr (Or.inr rfl)))

/-- Counterexample for C9 as stated: on input 2 to the 63 plus 1, a value a
64-bit unsigned argument can hold, the doubling candidate wraps to 0 modulo
2 to the 64 and the loop of byte_pow2_ceil never finishes. -/
theorem c9_nonterminating_input : ¬ Terminates (2 ^ 63 + 1) := by
  rintro ⟨fuel, hfuel⟩
  rw [bpc_loop_stuck fuel 8 (Or.inr ⟨3, by omega, by norm_num⟩)] at hfuel
  simp at hfuel

/-- Claim C9, amended: the loop of byte_pow2_ceil terminates for every input
up to 2 to the 63, in particular for every supported request, the candidate
reaching the input within at most 61 steps; the remaining operations of the
module are loop-free. -/
theorem c9_terminates_le : ∀ x : Nat, x ≤ 2 ^ 63 → Terminates x := by
  intro x hx
  refine ⟨61, ?_⟩
  exact bpc_loop_term hx 61 3 (by omega) (by omega)

/-- Witness for the amended C9 at a concrete input. -/
theorem c9_terminates_le_witness : Terminates 64 := c9_terminates_le 64 (by norm_num)

/-- Claim C10: for an unsigned w-bit operand and a fixed non-negative shift
amount below w, lshift multiplies by the power of two and truncates to the
operand width, discarding the bits shifted past it, and the result again
fits in w bits. -/
theorem c10_lshift_truncates : ∀ (w : Nat) (k : Int) (v : Nat),
    0 ≤ k → k < (w : Int) → v < 2 ^ w →
    lshift w k v = v * 2 ^ k.toNat % 2 ^ w ∧ lshift w k v < 2 ^ w := by
  intro w k v hk hkw hv
  have hneg : ¬ k < 0 := by omega
  constructor
  · simp only [lshift, if_neg hneg, Nat.shiftLeft_eq]
  · simp only [lshift, if_neg hneg]
    exact Nat.mod_lt _ (pow_pos (by norm_num) w)

/-- Witness for C10: shifting the 8-bit operand 3 left by 7 discards the
high bit, giving 128 rather than 384. -/
theorem c10_lshift_truncates_witness : lshift 8 7 3 = 128 ∧ lshift 8 7 3 < 256 := by
  have h := c10_lshift_truncates 8 7 3 (by norm_num) (by norm_num) (by norm_num)
  exact ⟨h.1.trans (by decide), h.2⟩

end Fp
